import Mathlib

/-!
Shallow embedding of the kperf load-generation engine, translated from the
Go sources in package `request` (request/cache.go: the name cache, the
scheduler, the weighted-random generator and the request builders) and
package `metrics` (metrics/request.go: the response metric sink).

Conventions of the embedding:
* machine ints (`int`, `int64`) become `Int`;
* `float64` quantities that the engine only compares and divides by
  constants (latencies, `deleteRatio`, the 1000-bucket draw) become `ℚ`;
* mutexes and atomics are dropped: all operations are modelled as pure
  state-passing functions, which is the sequential semantics the claims
  quantify over;
* calls into external collaborators (the crypto RNG, the wall clock, the
  prometheus registry, the templating helper) become explicit parameters
  or recorded call descriptions.
-/

namespace Kperf

/-- `Cache` (request/cache.go): a FIFO of resource names backed by
`container/list`; `items` lists the elements front first. The mutex is
dropped in this sequential model. -/
structure Cache where
  items : List String
deriving DecidableEq, Repr

/-- `InitCache` creates a new empty cache. -/
def InitCache : Cache := ⟨[]⟩

/-- `Cache.Pop`: removes and returns the first item (front of the list);
returns `("", false)` and leaves the cache unchanged when empty. The
result is (returned name, ok, cache after the call). -/
def Cache.Pop (c : Cache) : String × Bool × Cache :=
  match c.items with
  | [] => ("", false, c)
  | x :: xs => (x, true, ⟨xs⟩)

/-- `Cache.Push`: adds an item at the back (`PushBack`). -/
def Cache.Push (c : Cache) (name : String) : Cache :=
  ⟨c.items ++ [name]⟩

/-- `Cache.Len`: number of items. -/
def Cache.Len (c : Cache) : Nat := c.items.length

/-- `PostDelDiscardRequester` (request/cache.go): the post/delete requester
carrying the generated (or popped) resource `name` and the `operation`
string, `"POST"` or `"DELETE"`. The wrapped `DiscardRequester` and the
back-pointer to the owning builder are represented by passing the owning
cache explicitly to `Do`. -/
structure PostDelDiscardRequester where
  name : String
  operation : String
deriving DecidableEq, Repr

/-- `PostDelDiscardRequester.Do`: runs the wrapped `DiscardRequester.Do`,
whose outcome is given as `(bytes, err)`, then applies the cache
post-condition of the source: on `"POST"` push the name if `err == nil`;
on `"DELETE"` push the name back if `err != nil`; otherwise leave the
cache alone. Returns `(bytes, err)` unchanged together with the cache
after the call. -/
def PostDelDiscardRequester.Do (reqr : PostDelDiscardRequester)
    (cache : Cache) (bytes : Int) (err : Option String) :
    Int × Option String × Cache :=
  let cache1 :=
    if reqr.operation = "POST" then
      if err = none then cache.Push reqr.name else cache
    else if reqr.operation = "DELETE" then
      if err ≠ none then cache.Push reqr.name else cache
    else cache
  (bytes, err, cache1)

/-- C7: NameCache FIFO contract: `Pop` reports `ok = false` exactly on the
empty cache and leaves the empty cache unchanged, `Push` appends at the
tail, and the single-threaded sequence `Push a, Push b, Pop` starting from
the fresh cache returns `a` (strict FIFO). -/
theorem C7_cache_fifo (c : Cache) (a b : String) :
    ((c.Pop.2.1 = false) ↔ c.Len = 0) ∧
    Cache.Pop ⟨[]⟩ = ("", false, ⟨[]⟩) ∧
    InitCache.Pop = ("", false, InitCache) ∧
    (c.Push a).items = c.items ++ [a] ∧
    ((InitCache.Push a).Push b).Pop = (a, true, ⟨[b]⟩) := by
  refine ⟨?_, rfl, rfl, rfl, rfl⟩
  cases h : c.items with
  | nil =>
      simp [Cache.Pop, Cache.Len, h]
  | cons x xs =>
      simp [Cache.Pop, Cache.Len, h]

/-- C4: PostDel cache post-condition: after `PostDelDiscardRequester.Do`,
a successful POST pushes the generated name, a failed DELETE pushes the
popped name back (so the cache length equals its length before the `Pop`
that produced the name), and in the other two cases (failed POST,
successful DELETE) the cache is unchanged. -/
theorem C4_postdel_cache (name e : String) (cache : Cache) (bytes : Int)
    (x : String) (xs : List String) :
    ((PostDelDiscardRequester.Do ⟨name, "POST"⟩ cache bytes none).2.2 =
        cache.Push name) ∧
    ((PostDelDiscardRequester.Do ⟨name, "POST"⟩ cache bytes (some e)).2.2 =
        cache) ∧
    ((PostDelDiscardRequester.Do ⟨name, "DELETE"⟩ cache bytes (some e)).2.2 =
        cache.Push name) ∧
    ((PostDelDiscardRequester.Do ⟨name, "DELETE"⟩ cache bytes none).2.2 =
        cache) ∧
    (Cache.Pop ⟨x :: xs⟩ = (x, true, ⟨xs⟩) ∧
      ((PostDelDiscardRequester.Do ⟨x, "DELETE"⟩ ⟨xs⟩ bytes (some e)).2.2).Len =
        Cache.Len ⟨x :: xs⟩) := by
  refine ⟨rfl, ?_, ?_, ?_, rfl, ?_⟩
  · simp [PostDelDiscardRequester.Do]
  · simp [PostDelDiscardRequester.Do]
  · simp [PostDelDiscardRequester.Do]
  · simp [PostDelDiscardRequester.Do, Cache.Push, Cache.Len]

/-- `responseMetricImpl` (metrics/request.go): the response metric sink.
The prometheus `SummaryVec` is modelled by the list of observed latency
values (front = oldest); `failureCount` is the `int64` counter,
`failureList` the append-only error list (errors as strings). -/
structure responseMetricImpl where
  latencySeconds : List ℚ
  failureCount : Int
  failureList : List String
deriving DecidableEq, Repr

/-- `NewResponseMetric`: empty summary, zero counter, empty list. -/
def NewResponseMetric : responseMetricImpl := ⟨[], 0, []⟩

/-- `ObserveLatency`: records one latency observation in the summary. -/
def responseMetricImpl.ObserveLatency (m : responseMetricImpl) (seconds : ℚ) :
    responseMetricImpl :=
  { m with latencySeconds := m.latencySeconds ++ [seconds] }

/-- `ObserveFailure`: appends `err` to `failureList` and increments
`failureCount` by one (the two `fmt.Println` debug lines have no state
effect and are dropped). -/
def responseMetricImpl.ObserveFailure (m : responseMetricImpl) (err : String) :
    responseMetricImpl :=
  { m with failureList := m.failureList ++ [err],
           failureCount := m.failureCount + 1 }

/-- `Gather` (metrics/request.go): registers the summary in a fresh
registry and gathers it. The registry gather is external prometheus code;
its outcome is the parameter `regErr`. On failure `Gather` returns
`(nil, 0, wrapped error, failureList)`; on success it returns the latency
data (the quantile computation of the external library is abstracted to
the raw observation series), the failure count, no error, and the
failure list. -/
def responseMetricImpl.Gather (m : responseMetricImpl) (regErr : Option String) :
    Option (List ℚ) × Int × Option String × List String :=
  match regErr with
  | some e =>
      (none, 0, some ("failed to gather from local registry: " ++ e),
        m.failureList)
  | none => (some m.latencySeconds, m.failureCount, none, m.failureList)

/-- One operation on the metric sink. -/
inductive MetricOp
  | latency (seconds : ℚ)
  | failure (err : String)
deriving DecidableEq, Repr

/-- Apply one sink operation. -/
def applyMetricOp (m : responseMetricImpl) : MetricOp → responseMetricImpl
  | .latency s => m.ObserveLatency s
  | .failure e => m.ObserveFailure e

/-- Run a sequence of sink operations from the freshly created sink. -/
def runMetricOps (ops : List MetricOp) : responseMetricImpl :=
  ops.foldl applyMetricOp NewResponseMetric

lemma applyMetricOp_count_eq_length (m : responseMetricImpl) (op : MetricOp)
    (h : m.failureCount = (m.failureList.length : Int)) :
    (applyMetricOp m op).failureCount =
      ((applyMetricOp m op).failureList.length : Int) := by
  cases op with
  | latency s => simpa [applyMetricOp, responseMetricImpl.ObserveLatency] using h
  | failure e =>
      simp [applyMetricOp, responseMetricImpl.ObserveFailure, h]

lemma foldl_metricOps_count_eq_length (ops : List MetricOp)
    (m : responseMetricImpl)
    (h : m.failureCount = (m.failureList.length : Int)) :
    (ops.foldl applyMetricOp m).failureCount =
      (((ops.foldl applyMetricOp m).failureList.length : Int)) := by
  induction ops generalizing m with
  | nil => simpa using h
  | cons op rest ih =>
      simpa using ih (applyMetricOp m op) (applyMetricOp_count_eq_length m op h)

/-- C10: failure-count consistency: each `ObserveFailure` appends exactly
one error and increments the counter by exactly one, so after any
sequence of sink operations the counter equals the length of the failure
list, and `Gather` (on a successful registry gather) reports a failure
count equal to `len(failureList)`. -/
theorem C10_failure_count_consistency (ops : List MetricOp)
    (m : responseMetricImpl) (e : String) :
    ((m.ObserveFailure e).failureList = m.failureList ++ [e] ∧
      (m.ObserveFailure e).failureCount = m.failureCount + 1) ∧
    (runMetricOps ops).failureCount =
      ((runMetricOps ops).failureList.length : Int) ∧
    ((runMetricOps ops).Gather none).2.1 =
      ((((runMetricOps ops).Gather none).2.2.2.length : Int)) := by
  have hinv := foldl_metricOps_count_eq_length ops NewResponseMetric (by
    simp [NewResponseMetric])
  refine ⟨⟨rfl, rfl⟩, by simpa [runMetricOps] using hinv, ?_⟩
  simpa [responseMetricImpl.Gather, runMetricOps] using hinv

/-- `ResponseStats` (api/types, as constructed at the end of `Schedule` in
request/cache.go): the final report value. `PercentileLatencies` carries
the gathered latency data (abstracted as in `Gather`). -/
structure ResponseStats where
  Total : Int
  FailureList : List String
  Duration : ℚ
  TotalReceivedBytes : Int
  PercentileLatencies : Option (List ℚ)
deriving DecidableEq, Repr

/-- The tail of `Schedule` (request/cache.go): gather from the sink, build
the `ResponseStats` with `Total := spec.Total`, and return it. The second
component is the error value of the final `return` statement, which is
the literal `nil` whatever `Gather` reported: the source discards the
gather outcome apart from the pieces copied into the stats. -/
def scheduleGatherReturn (specTotal : Int) (duration : ℚ) (bytes : Int)
    (m : responseMetricImpl) (regErr : Option String) :
    ResponseStats × Option String :=
  let g := m.Gather regErr
  ({ Total := specTotal
     FailureList := g.2.2.2
     Duration := duration
     TotalReceivedBytes := bytes
     PercentileLatencies := g.1 }, none)

/-- C8 counterexample: when the final `Gather` fails (here with a quantile
registry error on a fresh sink), `Schedule` still returns a `nil` error —
not an `InternalError` — so the claim that the caller receives an
`InternalError` is false on the code. -/
theorem C8_counterexample :
    (scheduleGatherReturn 5 0 0 NewResponseMetric
        (some "quantile registry error")).2 = none := rfl

/-- C8 amended: if the final `Gather` fails, `Gather` itself returns the
wrapped registry error together with the failure list (the stats that
could be extracted), but `Schedule` ignores that error and returns the
`ResponseStats` — carrying that failure list — with a `nil` error. -/
theorem C8_gather_error_ignored (m : responseMetricImpl) (e : String)
    (specTotal : Int) (d : ℚ) (bytes : Int) :
    (m.Gather (some e)).2.2.1 =
      some ("failed to gather from local registry: " ++ e) ∧
    (m.Gather (some e)).2.2.2 = m.failureList ∧
    (scheduleGatherReturn specTotal d bytes m (some e)).1.FailureList =
      m.failureList ∧
    (scheduleGatherReturn specTotal d bytes m (some e)).2 = none := by
  exact ⟨rfl, rfl, rfl, rfl⟩

/-- Exit mode of `WeightedRandomRequests.Run`: the `break` when the target
total is reached, or a `return` from one of the two `ctx.Done()` arms of
the `select`. -/
inductive RunExit
  | reached
  | cancelled
deriving DecidableEq, Repr

/-- The loop of `WeightedRandomRequests.Run` (request/cache.go): `sum`
counts successful sends; each iteration first checks
`total > 0 && sum >= total`, then offers the picked builder on the
channel. `cancels sum` tells whether the `select` of the iteration at
counter value `sum` observes a closed `Done` channel (of the generator's
own context or the caller's) instead of completing the send. The loop is
indexed by fuel; `none` means the fuel ran out with the loop still
running. The result carries the exit mode and the final send count. -/
def runLoop (total : Int) (cancels : Int → Bool) :
    Nat → Int → Option (RunExit × Int)
  | 0, _ => none
  | fuel + 1, sum =>
    if 0 < total ∧ total ≤ sum then some (.reached, sum)
    else if cancels sum then some (.cancelled, sum)
    else runLoop total cancels fuel (sum + 1)

/-- `WeightedRandomRequests.Run`: the loop started with `sum = 0`. -/
def WeightedRandomRequests.Run (total : Int) (cancels : Int → Bool)
    (fuel : Nat) : Option (RunExit × Int) :=
  runLoop total cancels fuel 0

lemma runLoop_reached_imp (total : Int) (g : Int → Bool) :
    ∀ (fuel : Nat) (sum s : Int),
      runLoop total g fuel sum = some (.reached, s) →
      0 < total ∧ total ≤ s := by
  intro fuel
  induction fuel with
  | zero => intro sum s h; simp [runLoop] at h
  | succ n ih =>
      intro sum s h
      rw [runLoop] at h
      by_cases h1 : 0 < total ∧ total ≤ sum
      · rw [if_pos h1] at h
        cases h
        exact h1
      · rw [if_neg h1] at h
        by_cases h2 : g sum = true
        · simp [h2] at h
        · simp only [h2, if_false, Bool.false_eq_true] at h
          exact ih (sum + 1) s h

lemma runLoop_reached_eq_total (total : Int) (g : Int → Bool) :
    ∀ (fuel : Nat) (sum s : Int), sum ≤ total →
      runLoop total g fuel sum = some (.reached, s) → s = total := by
  intro fuel
  induction fuel with
  | zero => intro sum s _ h; simp [runLoop] at h
  | succ n ih =>
      intro sum s hle h
      rw [runLoop] at h
      by_cases h1 : 0 < total ∧ total ≤ sum
      · rw [if_pos h1] at h
        cases h
        exact le_antisymm hle h1.2
      · rw [if_neg h1] at h
        by_cases h2 : g sum = true
        · simp [h2] at h
        · simp only [h2, if_false, Bool.false_eq_true] at h
          rcases lt_or_le sum total with hlt | hge
          · exact ih (sum + 1) s hlt h
          · have := runLoop_reached_imp total g n (sum + 1) s h
            exact absurd ⟨this.1, hge⟩ h1

lemma runLoop_cancelled_imp (total : Int) (g : Int → Bool) :
    ∀ (fuel : Nat) (sum s : Int),
      runLoop total g fuel sum = some (.cancelled, s) → g s = true := by
  intro fuel
  induction fuel with
  | zero => intro sum s h; simp [runLoop] at h
  | succ n ih =>
      intro sum s h
      rw [runLoop] at h
      by_cases h1 : 0 < total ∧ total ≤ sum
      · rw [if_pos h1] at h; cases h
      · rw [if_neg h1] at h
        by_cases h2 : g sum = true
        · rw [if_pos h2] at h
          cases h
          exact h2
        · simp only [h2, if_false, Bool.false_eq_true] at h
          exact ih (sum + 1) s h

lemma runLoop_noCancel_reaches (total : Int) :
    ∀ (n : Nat) (sum : Int), 0 < total → sum + n = total →
      runLoop total (fun _ => false) (n + 1) sum = some (.reached, total) := by
  intro n
  induction n with
  | zero =>
      intro sum hpos hsum
      have hst : sum = total := by omega
      subst hst
      rw [runLoop]
      rw [if_pos ⟨hpos, le_rfl⟩]
  | succ m ih =>
      intro sum hpos hsum
      rw [runLoop]
      have hns : ¬ (0 < total ∧ total ≤ sum) := by omega
      rw [if_neg hns]
      simp only [Bool.false_eq_true, if_false]
      exact ih (sum + 1) hpos (by omega)

lemma runLoop_nonpos_noCancel_forever (total : Int) (h : total ≤ 0) :
    ∀ (fuel : Nat) (sum : Int),
      runLoop total (fun _ => false) fuel sum = none := by
  intro fuel
  induction fuel with
  | zero => intro sum; rfl
  | succ n ih =>
      intro sum
      rw [runLoop]
      have hns : ¬ (0 < total ∧ total ≤ sum) := by omega
      rw [if_neg hns]
      simp only [Bool.false_eq_true, if_false]
      exact ih (sum + 1)

lemma runLoop_cancelAt (total k : Int) (hk : total ≤ 0 ∨ k < total) :
    ∀ (n : Nat) (sum : Int), sum + n = k →
      runLoop total (fun x => decide (k ≤ x)) (n + 1) sum =
        some (.cancelled, k) := by
  intro n
  induction n with
  | zero =>
      intro sum hsum
      have hst : sum = k := by omega
      subst hst
      rw [runLoop]
      have hns : ¬ (0 < total ∧ total ≤ sum) := by omega
      rw [if_neg hns]
      have : (decide (sum ≤ sum)) = true := by
        simp only [decide_eq_true_eq]; omega
      rw [if_pos this]
  | succ m ih =>
      intro sum hsum
      rw [runLoop]
      have hns : ¬ (0 < total ∧ total ≤ sum) := by omega
      rw [if_neg hns]
      have : (decide (k ≤ sum)) = false := by
        simp only [decide_eq_false_iff_not]; omega
      rw [this]
      simp only [Bool.false_eq_true, if_false]
      exact ih (sum + 1) (by omega)

/-- C6: generator loop exit: `Run` exits by `reached` only with exactly
`total` sends (and only when `total > 0`); with `total > 0` and no
cancellation it terminates having sent exactly `total` builders; with
`total = 0` and no cancellation it runs forever (no fuel exhausts it);
a cancellation arriving after `k < total` sends makes it exit
`cancelled` with exactly `k` sends; and a `cancelled` exit happens only
at an iteration whose `select` observed a `Done` channel. -/
theorem C6_run_exit (total k : Int) (h1 : 0 < total) (h2 : 0 ≤ k)
    (h3 : k < total) :
    (∀ (fuel : Nat) (g : Int → Bool) (s : Int),
        WeightedRandomRequests.Run total g fuel = some (.reached, s) →
        s = total) ∧
    WeightedRandomRequests.Run total (fun _ => false) (total.toNat + 1) =
      some (.reached, total) ∧
    (∀ fuel : Nat, WeightedRandomRequests.Run 0 (fun _ => false) fuel = none) ∧
    WeightedRandomRequests.Run total (fun x => decide (k ≤ x)) (k.toNat + 1) =
      some (.cancelled, k) ∧
    (∀ (fuel : Nat) (g : Int → Bool) (s : Int),
        WeightedRandomRequests.Run total g fuel = some (.cancelled, s) →
        g s = true) := by
  refine ⟨?_, ?_, ?_, ?_, ?_⟩
  · intro fuel g s h
    exact runLoop_reached_eq_total total g fuel 0 s (le_of_lt h1) h
  · exact runLoop_noCancel_reaches total total.toNat 0 h1 (by omega)
  · intro fuel
    exact runLoop_nonpos_noCancel_forever 0 le_rfl fuel 0
  · exact runLoop_cancelAt total k (Or.inr h3) k.toNat 0 (by omega)
  · intro fuel g s h
    exact runLoop_cancelled_imp total g fuel 0 s h

/-- C6 witness: at `total = 3`, `k = 1`: the no-cancellation run reaches
exactly 3 sends and the cancelled run stops at 1 send. -/
theorem C6_run_exit_witness :
    WeightedRandomRequests.Run 3 (fun _ => false) 4 = some (.reached, 3) ∧
    WeightedRandomRequests.Run 3 (fun x => decide ((1:Int) ≤ x)) 2 =
      some (.cancelled, 1) := by
  have h := C6_run_exit 3 1 (by norm_num) (by norm_num) (by norm_num)
  exact ⟨h.2.1, h.2.2.2.1⟩

/-- The selection loop of `WeightedRandomRequests.randomPick`
(request/cache.go): given the shares vector and the drawn value `rnd`,
walk the shares; if `rnd < shares[i]` return index `i`, else subtract and
continue. `none` models falling through the loop into the
`panic("unreachable")` line. (The source then returns
`reqBuilders[i]`, the builder at the selected index.) -/
def randomPickLoop : List Int → Int → Option Nat
  | [], _ => none
  | s :: rest, rnd =>
    if rnd < s then some 0 else (randomPickLoop rest (rnd - s)).map (· + 1)

/-- `sum` computed by the first loop of `randomPick`. -/
def sharesSum (shares : List Int) : Int := shares.sum

/-- Sum of the first `n` shares, `sum(shares[0..n])` in the claim's
notation. -/
def takeSum (shares : List Int) (n : Nat) : Int := (shares.take n).sum

lemma takeSum_zero (shares : List Int) : takeSum shares 0 = 0 := rfl

lemma takeSum_cons_succ (s : Int) (rest : List Int) (n : Nat) :
    takeSum (s :: rest) (n + 1) = s + takeSum rest n := by
  simp [takeSum, List.take_succ_cons]

lemma takeSum_nonneg (shares : List Int) (n : Nat)
    (hpos : ∀ s ∈ shares, 0 < s) : 0 ≤ takeSum shares n := by
  refine List.sum_nonneg ?_
  intro x hx
  exact le_of_lt (hpos x (List.take_subset n shares hx))

lemma randomPickLoop_spec (shares : List Int) (r : Int)
    (hpos : ∀ s ∈ shares, 0 < s) (h0 : 0 ≤ r) (hr : r < sharesSum shares) :
    ∃ i, randomPickLoop shares r = some i ∧
      takeSum shares i ≤ r ∧ r < takeSum shares (i + 1) ∧
      ∀ j, takeSum shares j ≤ r → r < takeSum shares (j + 1) → j = i := by
  induction shares generalizing r with
  | nil =>
      exfalso
      simp [sharesSum] at hr
      omega
  | cons s rest ih =>
      by_cases hlt : r < s
      · refine ⟨0, ?_, ?_, ?_, ?_⟩
        · simp [randomPickLoop, hlt]
        · simpa [takeSum_zero] using h0
        · simpa [takeSum_cons_succ, takeSum_zero] using hlt
        · intro j hj1 hj2
          cases j with
          | zero => rfl
          | succ m =>
              exfalso
              rw [takeSum_cons_succ] at hj1
              have hm : 0 ≤ takeSum rest m :=
                takeSum_nonneg rest m (fun x hx => hpos x (List.mem_cons_of_mem s hx))
              omega
      · push_neg at hlt
        have hrest : ∀ x ∈ rest, 0 < x :=
          fun x hx => hpos x (List.mem_cons_of_mem s hx)
        have h0r : 0 ≤ r - s := by omega
        have hrr : r - s < sharesSum rest := by
          simp only [sharesSum, List.sum_cons] at hr ⊢
          omega
        obtain ⟨i, hi, hle, hlt2, huniq⟩ := ih (r - s) hrest h0r hrr
        refine ⟨i + 1, ?_, ?_, ?_, ?_⟩
        · simp [randomPickLoop, not_lt.mpr hlt, hi]
        · rw [takeSum_cons_succ]
          omega
        · rw [takeSum_cons_succ]
          omega
        · intro j hj1 hj2
          cases j with
          | zero =>
              exfalso
              rw [takeSum_cons_succ, takeSum_zero] at hj2
              omega
          | succ m =>
              rw [takeSum_cons_succ] at hj1 hj2
              have := huniq m (by omega) (by omega)
              omega

/-- C5: weighted selection: for a shares vector of positive shares and any
drawn `r` with `0 ≤ r < sum(shares)`, the `randomPick` loop selects
exactly the unique index `i` with
`sum(shares[0..i]) ≤ r < sum(shares[0..i+1])` (the source then returns
`reqBuilders[i]`), and the loop never falls through to its
`panic("unreachable")` line. -/
theorem C5_weighted_pick (shares : List Int) (r : Int)
    (hpos : ∀ s ∈ shares, 0 < s) (h0 : 0 ≤ r) (hr : r < sharesSum shares) :
    (∃ i, randomPickLoop shares r = some i ∧
      takeSum shares i ≤ r ∧ r < takeSum shares (i + 1) ∧
      ∀ j, takeSum shares j ≤ r → r < takeSum shares (j + 1) → j = i) ∧
    randomPickLoop shares r ≠ none := by
  obtain ⟨i, hi, h2, h3, h4⟩ := randomPickLoop_spec shares r hpos h0 hr
  exact ⟨⟨i, hi, h2, h3, h4⟩, by rw [hi]; exact Option.some_ne_none i⟩

/-- C5 witness: shares `[2, 3]`, draw `r = 3`: the loop picks index 1,
whose cumulative-share interval `[2, 5)` contains 3. -/
theorem C5_weighted_pick_witness :
    (∃ i, randomPickLoop [2, 3] 3 = some i ∧
      takeSum [2, 3] i ≤ 3 ∧ (3:Int) < takeSum [2, 3] (i + 1) ∧
      ∀ j, takeSum [2, 3] j ≤ 3 → (3:Int) < takeSum [2, 3] (j + 1) → j = i) ∧
    randomPickLoop [2, 3] 3 ≠ none :=
  C5_weighted_pick [2, 3] 3
    (by intro s hs; fin_cases hs <;> norm_num) (by norm_num) (by norm_num [sharesSum])

/-! Request configuration values (`types.Request*` from api/types, fields
as read by the builder constructors in request/cache.go). Go's
`namespace` field is spelled `Namespace` here (capitalised, as in the Go
structs); the lowercased builder field is spelled `nspace` because
`namespace` is reserved in Lean. -/

/-- `types.RequestList`. -/
structure RequestList where
  Group : String
  Version : String
  Resource : String
  Namespace : String
  Limit : Int
  Selector : String
  FieldSelector : String
deriving DecidableEq, Repr

/-- `types.RequestGet`. -/
structure RequestGet where
  Group : String
  Version : String
  Resource : String
  Namespace : String
  Name : String
deriving DecidableEq, Repr

/-- `types.RequestWatchList`. -/
structure RequestWatchList where
  Group : String
  Version : String
  Resource : String
  Namespace : String
  Selector : String
  FieldSelector : String
deriving DecidableEq, Repr

/-- `types.RequestGetPodLog`. -/
structure RequestGetPodLog where
  Namespace : String
  Name : String
  Container : String
  TailLines : Option Int
  LimitBytes : Option Int
deriving DecidableEq, Repr

/-- `types.RequestPatch`. -/
structure RequestPatch where
  Group : String
  Version : String
  Resource : String
  Namespace : String
  Name : String
  KeySpaceSize : Int
  PatchType : String
  Body : String
deriving DecidableEq, Repr

/-- `types.RequestPostDel`. -/
structure RequestPostDel where
  Group : String
  Version : String
  Resource : String
  Namespace : String
  DeleteRatio : ℚ
deriving DecidableEq, Repr

/-- The URL path components shared by every `Build`:
`(api|apis)/[group/]version[/namespaces/NS]` exactly as each builder
assembles `comps` before appending the resource (and name). -/
def apiComps (group version nspace : String) : List String :=
  (if group = "" then ["api", version] else ["apis", group, version]) ++
    (if nspace = "" then [] else ["namespaces", nspace])

/-- `metav1.GetOptions` as attached by `requestGetBuilder.Build`. -/
structure GetOptionsM where
  resourceVersion : String
deriving DecidableEq, Repr

/-- `metav1.ListOptions` fields relevant to the engine; defaults are the
Go zero values of the fields a `Build` leaves unset. -/
structure ListOptionsM where
  labelSelector : String := ""
  fieldSelector : String := ""
  resourceVersion : String := ""
  limit : Int := 0
  watch : Bool := false
  sendInitialEvents : Option Bool := none
  resourceVersionMatch : String := ""
  allowWatchBookmarks : Bool := false
deriving DecidableEq, Repr

/-- `corev1.PodLogOptions` fields set by `requestGetPodLogBuilder.Build`. -/
structure PodLogOptionsM where
  container : String
  tailLines : Option Int
  limitBytes : Option Int
deriving DecidableEq, Repr

/-- The request value a `Build` produces: HTTP verb tag, absolute path
components, the versioned parameter object attached, body (for PATCH),
and the retry count. -/
structure BuiltRequest where
  method : String
  pathComps : List String
  getOptions : Option GetOptionsM := none
  listOptions : Option ListOptionsM := none
  podLogOptions : Option PodLogOptionsM := none
  body : Option String := none
  maxRetries : Int
deriving DecidableEq, Repr

/-- `requestGetBuilder`. -/
structure requestGetBuilder where
  group : String
  version : String
  resource : String
  nspace : String
  name : String
  resourceVersion : String
  maxRetries : Int
deriving DecidableEq, Repr

/-- `newRequestGetBuilder`. -/
def newRequestGetBuilder (src : RequestGet) (resourceVersion : String)
    (maxRetries : Int) : requestGetBuilder :=
  { group := src.Group, version := src.Version, resource := src.Resource,
    nspace := src.Namespace, name := src.Name,
    resourceVersion := resourceVersion, maxRetries := maxRetries }

/-- `requestGetBuilder.Build`: GET on
`.../RESOURCE/NAME` with `GetOptions{ResourceVersion: b.resourceVersion}`. -/
def requestGetBuilder.Build (b : requestGetBuilder) : BuiltRequest :=
  { method := "GET"
    pathComps := apiComps b.group b.version b.nspace ++ [b.resource, b.name]
    getOptions := some ⟨b.resourceVersion⟩
    maxRetries := b.maxRetries }

/-- `requestListBuilder`. -/
structure requestListBuilder where
  group : String
  version : String
  resource : String
  nspace : String
  limit : Int
  labelSelector : String
  fieldSelector : String
  resourceVersion : String
  maxRetries : Int
deriving DecidableEq, Repr

/-- `newRequestListBuilder`. -/
def newRequestListBuilder (src : RequestList) (resourceVersion : String)
    (maxRetries : Int) : requestListBuilder :=
  { group := src.Group, version := src.Version, resource := src.Resource,
    nspace := src.Namespace, limit := src.Limit,
    labelSelector := src.Selector, fieldSelector := src.FieldSelector,
    resourceVersion := resourceVersion, maxRetries := maxRetries }

/-- `requestListBuilder.Build`: LIST on `.../RESOURCE` with
`ListOptions{LabelSelector, FieldSelector, ResourceVersion, Limit}`. -/
def requestListBuilder.Build (b : requestListBuilder) : BuiltRequest :=
  { method := "LIST"
    pathComps := apiComps b.group b.version b.nspace ++ [b.resource]
    listOptions := some
      { labelSelector := b.labelSelector
        fieldSelector := b.fieldSelector
        resourceVersion := b.resourceVersion
        limit := b.limit }
    maxRetries := b.maxRetries }

/-- `requestWatchListBuilder`. -/
structure requestWatchListBuilder where
  group : String
  version : String
  resource : String
  nspace : String
  labelSelector : String
  fieldSelector : String
  maxRetries : Int
deriving DecidableEq, Repr

/-- `newRequestWatchListBuilder`. -/
def newRequestWatchListBuilder (src : RequestWatchList) (maxRetries : Int) :
    requestWatchListBuilder :=
  { group := src.Group, version := src.Version, resource := src.Resource,
    nspace := src.Namespace, labelSelector := src.Selector,
    fieldSelector := src.FieldSelector, maxRetries := maxRetries }

/-- `requestWatchListBuilder.Build`: WATCHLIST on `.../RESOURCE` with
`ListOptions{..., ResourceVersion: "", Watch: true,
SendInitialEvents: &true, ResourceVersionMatch: NotOlderThan,
AllowWatchBookmarks: true}` (the constant
`metav1.ResourceVersionMatchNotOlderThan` is the string
`"NotOlderThan"`). -/
def requestWatchListBuilder.Build (b : requestWatchListBuilder) :
    BuiltRequest :=
  { method := "WATCHLIST"
    pathComps := apiComps b.group b.version b.nspace ++ [b.resource]
    listOptions := some
      { labelSelector := b.labelSelector
        fieldSelector := b.fieldSelector
        resourceVersion := ""
        watch := true
        sendInitialEvents := some true
        resourceVersionMatch := "NotOlderThan"
        allowWatchBookmarks := true }
    maxRetries := b.maxRetries }

/-- `requestGetPodLogBuilder`. -/
structure requestGetPodLogBuilder where
  nspace : String
  name : String
  container : String
  tailLines : Option Int
  limitBytes : Option Int
  maxRetries : Int
deriving DecidableEq, Repr

/-- `newRequestGetPodLogBuilder`. -/
def newRequestGetPodLogBuilder (src : RequestGetPodLog) (maxRetries : Int) :
    requestGetPodLogBuilder :=
  { nspace := src.Namespace, name := src.Name, container := src.Container,
    tailLines := src.TailLines, limitBytes := src.LimitBytes,
    maxRetries := maxRetries }

/-- `requestGetPodLogBuilder.Build`: always the core group, path
`api/v1/namespaces/NS/pods/NAME/log` with `PodLogOptions`. -/
def requestGetPodLogBuilder.Build (b : requestGetPodLogBuilder) :
    BuiltRequest :=
  { method := "POD_LOG"
    pathComps := ["api", "v1", "namespaces", b.nspace, "pods", b.name, "log"]
    podLogOptions := some ⟨b.container, b.tailLines, b.limitBytes⟩
    maxRetries := b.maxRetries }

/-- `requestPatchBuilder`. The `patchType` is the value of the external
`types.GetPatchType(src.PatchType)`, kept as the configured string tag
(the mapping itself lives outside the engine sources). -/
structure requestPatchBuilder where
  group : String
  version : String
  resource : String
  resourceVersion : String
  nspace : String
  name : String
  keySpaceSize : Int
  patchType : String
  body : String
  maxRetries : Int
deriving DecidableEq, Repr

/-- `newRequestPatchBuilder`. -/
def newRequestPatchBuilder (src : RequestPatch) (resourceVersion : String)
    (maxRetries : Int) : requestPatchBuilder :=
  { group := src.Group, version := src.Version, resource := src.Resource,
    resourceVersion := resourceVersion, nspace := src.Namespace,
    name := src.Name, keySpaceSize := src.KeySpaceSize,
    patchType := src.PatchType, body := src.Body, maxRetries := maxRetries }

/-- `requestPatchBuilder.Build`: PATCH on `.../RESOURCE/{name}-{suffix}`
with the configured body; `suffix` is the value drawn from
`rand.Int(rand.Reader, big.NewInt(int64(keySpaceSize)))`. -/
def requestPatchBuilder.Build (b : requestPatchBuilder) (suffix : Int) :
    BuiltRequest :=
  { method := "PATCH"
    pathComps := apiComps b.group b.version b.nspace ++
      [b.resource, b.name ++ "-" ++ toString suffix]
    body := some b.body
    maxRetries := b.maxRetries }

/-- A call to the templating collaborator `utils.RenderTemplate`
(external to the engine): recorded as the resource kind it is keyed by
and the two parameters of the map literal
`{"namePattern": name, "namespace": b.namespace}`. -/
structure TemplateRender where
  kind : String
  namePattern : String
  nspace : String
deriving DecidableEq, Repr

/-- `requestPostDelBuilder` (request/cache.go): carries its own `Cache`
and the per-builder `int64` counter `resourceCounter`. -/
structure requestPostDelBuilder where
  group : String
  version : String
  resource : String
  resourceVersion : String
  nspace : String
  deleteRatio : ℚ
  maxRetries : Int
  cache : Cache
  resourceCounter : Int
deriving DecidableEq, Repr

/-- `newRequestPostDelBuilder`: fresh cache, counter at its Go zero
value `0`. -/
def newRequestPostDelBuilder (src : RequestPostDel)
    (resourceVersion : String) (maxRetries : Int) : requestPostDelBuilder :=
  { group := src.Group, version := src.Version, resource := src.Resource,
    resourceVersion := resourceVersion, nspace := src.Namespace,
    deleteRatio := src.DeleteRatio, maxRetries := maxRetries,
    cache := InitCache, resourceCounter := 0 }

/-- Result of `requestPostDelBuilder.Build`: the
`PostDelDiscardRequester` it returns, as operation tag, carried name,
built request, and the template render call for the POST body. -/
structure PostDelBuilt where
  operation : String
  name : String
  request : BuiltRequest
  templateCall : Option TemplateRender
deriving DecidableEq, Repr

/-- The POST arm of `requestPostDelBuilder.Build`: bump the atomic
counter (`atomic.AddInt64` returns the incremented value), generate the
name `"{timestamp}-{counter}"`, render the body keyed by the resource
kind, and build the POST requester. Returns the requester and the
updated builder. -/
def requestPostDelBuilder.buildPost (b : requestPostDelBuilder)
    (timestamp : Int) : PostDelBuilt × requestPostDelBuilder :=
  let counter := b.resourceCounter + 1
  let name := toString timestamp ++ "-" ++ toString counter
  (⟨"POST", name,
    { method := "POST"
      pathComps := apiComps b.group b.version b.nspace ++ [b.resource]
      maxRetries := b.maxRetries },
    some ⟨b.resource, name, b.nspace⟩⟩,
   { b with resourceCounter := counter })

/-- `requestPostDelBuilder.Build`: draw
`randomInt ∈ [0, 1000)` from `rand.Int(rand.Reader, big.NewInt(1000))`;
`shouldDelete := float64(randomInt)/1000.0 < deleteRatio` (float64
arithmetic modelled exactly over ℚ — every quotient `i/1000` with
`0 ≤ i < 1000` and the comparison are exact). If it holds and `Pop`
succeeds, return a DELETE requester for the popped name (cache shrunk by
the `Pop`); otherwise fall through to the POST arm. `timestamp` is the
value of `time.Now().UnixNano()`. -/
def requestPostDelBuilder.Build (b : requestPostDelBuilder)
    (randomInt : Int) (timestamp : Int) :
    PostDelBuilt × requestPostDelBuilder :=
  let shouldDelete := (randomInt : ℚ) / 1000 < b.deleteRatio
  if shouldDelete then
    match b.cache.Pop with
    | (name, true, cache1) =>
        (⟨"DELETE", name,
          { method := "DELETE"
            pathComps := apiComps b.group b.version b.nspace ++
              [b.resource, name]
            maxRetries := b.maxRetries },
          none⟩,
         { b with cache := cache1 })
    | (_, false, _) => b.buildPost timestamp
  else b.buildPost timestamp

/-- The per-entry `switch` of `NewWeightedRandomRequests`
(request/cache.go): exactly one variant tag is set per entry (enforced by
the external `spec.Validate()`), so an entry is a tagged variant here. -/
inductive RequestEntry
  | staleList (r : RequestList)
  | quorumList (r : RequestList)
  | watchList (r : RequestWatchList)
  | staleGet (r : RequestGet)
  | quorumGet (r : RequestGet)
  | getPodLog (r : RequestGetPodLog)
  | patch (r : RequestPatch)
  | postDel (r : RequestPostDel)
deriving Repr

/-- The `RESTRequestBuilder` chosen for an entry. -/
inductive RESTRequestBuilder
  | list (b : requestListBuilder)
  | get (b : requestGetBuilder)
  | watchList (b : requestWatchListBuilder)
  | getPodLog (b : requestGetPodLogBuilder)
  | patch (b : requestPatchBuilder)
  | postDel (b : requestPostDelBuilder)
deriving Repr

/-- The builder-selection `switch` of `NewWeightedRandomRequests`:
`StaleList`/`StaleGet` pass resourceVersion `"0"`,
`QuorumList`/`QuorumGet` pass `""`, the others their own constructors. -/
def builderFor (maxRetries : Int) : RequestEntry → RESTRequestBuilder
  | .staleList r => .list (newRequestListBuilder r "0" maxRetries)
  | .quorumList r => .list (newRequestListBuilder r "" maxRetries)
  | .watchList r => .watchList (newRequestWatchListBuilder r maxRetries)
  | .staleGet r => .get (newRequestGetBuilder r "0" maxRetries)
  | .quorumGet r => .get (newRequestGetBuilder r "" maxRetries)
  | .getPodLog r => .getPodLog (newRequestGetPodLogBuilder r maxRetries)
  | .patch r => .patch (newRequestPatchBuilder r "" maxRetries)
  | .postDel r => .postDel (newRequestPostDelBuilder r "" maxRetries)

/-- C9: resource-version and watch parameters: the switch forces
resourceVersion `"0"` for StaleList/StaleGet and `""` for
QuorumList/QuorumGet — and the built requests carry exactly those
parameter values — and every WatchList request is built with
`watch=true`, `sendInitialEvents=true`,
`resourceVersionMatch=NotOlderThan`, `allowWatchBookmarks=true`. -/
theorem C9_resource_version_params (mr : Int) (rl : RequestList)
    (rg : RequestGet) (rw : RequestWatchList) :
    (builderFor mr (.staleList rl) =
        .list (newRequestListBuilder rl "0" mr) ∧
      (newRequestListBuilder rl "0" mr).Build.listOptions = some
        { labelSelector := rl.Selector, fieldSelector := rl.FieldSelector,
          resourceVersion := "0", limit := rl.Limit }) ∧
    (builderFor mr (.quorumList rl) =
        .list (newRequestListBuilder rl "" mr) ∧
      (newRequestListBuilder rl "" mr).Build.listOptions = some
        { labelSelector := rl.Selector, fieldSelector := rl.FieldSelector,
          resourceVersion := "", limit := rl.Limit }) ∧
    (builderFor mr (.staleGet rg) =
        .get (newRequestGetBuilder rg "0" mr) ∧
      (newRequestGetBuilder rg "0" mr).Build.getOptions = some ⟨"0"⟩) ∧
    (builderFor mr (.quorumGet rg) =
        .get (newRequestGetBuilder rg "" mr) ∧
      (newRequestGetBuilder rg "" mr).Build.getOptions = some ⟨""⟩) ∧
    (builderFor mr (.watchList rw) =
        .watchList (newRequestWatchListBuilder rw mr) ∧
      (newRequestWatchListBuilder rw mr).Build.listOptions = some
        { labelSelector := rw.Selector, fieldSelector := rw.FieldSelector,
          resourceVersion := "", watch := true,
          sendInitialEvents := some true,
          resourceVersionMatch := "NotOlderThan",
          allowWatchBookmarks := true }) := by
  exact ⟨⟨rfl, rfl⟩, ⟨rfl, rfl⟩, ⟨rfl, rfl⟩, ⟨rfl, rfl⟩, ⟨rfl, rfl⟩⟩

lemma cache_pop_of_items (c : Cache) (x : String) (xs : List String)
    (h : c.items = x :: xs) : c.Pop = (x, true, ⟨xs⟩) := by
  cases c
  cases h
  rfl

lemma cache_pop_of_items_nil (c : Cache) (h : c.items = []) :
    c.Pop = ("", false, c) := by
  cases c
  cases h
  rfl

/-- C3: PostDel decision: the drawn `u = randomInt/1000` lies in `[0,1)`;
when `u < deleteRatio` and the NameCache is non-empty, `Build` pops the
head name and returns a DELETE requester for it (cache shrunk, counter
untouched); in every other case it returns a POST requester whose name is
`"{unixNanos}-{counter}"` for the atomically incremented per-builder
counter — which starts at `0` in a fresh builder, so the first POST uses
`1` — with the body rendered by the templating collaborator keyed by the
resource kind with parameters `{namePattern, namespace}`. -/
theorem C3_postdel_decision (b : requestPostDelBuilder)
    (randomInt timestamp : Int) (src : RequestPostDel) (rv : String)
    (mr : Int) (h0 : 0 ≤ randomInt) (h1 : randomInt < 1000) :
    (0 ≤ (randomInt : ℚ) / 1000 ∧ (randomInt : ℚ) / 1000 < 1) ∧
    (∀ x xs, (randomInt : ℚ) / 1000 < b.deleteRatio →
      b.cache.items = x :: xs →
      (b.Build randomInt timestamp).1.operation = "DELETE" ∧
      (b.Build randomInt timestamp).1.name = x ∧
      (b.Build randomInt timestamp).1.request.pathComps =
        apiComps b.group b.version b.nspace ++ [b.resource, x] ∧
      (b.Build randomInt timestamp).2 = { b with cache := ⟨xs⟩ }) ∧
    ((¬ (randomInt : ℚ) / 1000 < b.deleteRatio) ∨ b.cache.items = [] →
      (b.Build randomInt timestamp) = b.buildPost timestamp ∧
      (b.buildPost timestamp).1.operation = "POST" ∧
      (b.buildPost timestamp).1.name =
        toString timestamp ++ "-" ++ toString (b.resourceCounter + 1) ∧
      (b.buildPost timestamp).2.resourceCounter = b.resourceCounter + 1 ∧
      (b.buildPost timestamp).2.cache = b.cache ∧
      (b.buildPost timestamp).1.templateCall =
        some ⟨b.resource, (b.buildPost timestamp).1.name, b.nspace⟩) ∧
    (newRequestPostDelBuilder src rv mr).resourceCounter = 0 := by
  refine ⟨⟨?_, ?_⟩, ?_, ?_, rfl⟩
  · positivity
  · rw [div_lt_one (by norm_num)]
    exact_mod_cast h1
  · intro x xs hlt hc
    have hpop := cache_pop_of_items b.cache x xs hc
    have hb : b.Build randomInt timestamp =
        (⟨"DELETE", x,
          { method := "DELETE"
            pathComps := apiComps b.group b.version b.nspace ++
              [b.resource, x]
            maxRetries := b.maxRetries },
          none⟩,
         { b with cache := ⟨xs⟩ }) := by
      rw [requestPostDelBuilder.Build]
      simp only [if_pos hlt, hpop]
    rw [hb]
    exact ⟨rfl, rfl, rfl, rfl⟩
  · intro hno
    have hb : b.Build randomInt timestamp = b.buildPost timestamp := by
      rcases hno with hge | hnil
      · rw [requestPostDelBuilder.Build]
        simp only [if_neg hge]
      · by_cases hlt : (randomInt : ℚ) / 1000 < b.deleteRatio
        · have hpop := cache_pop_of_items_nil b.cache hnil
          rw [requestPostDelBuilder.Build]
          simp only [if_pos hlt, hpop]
        · rw [requestPostDelBuilder.Build]
          simp only [if_neg hlt]
    exact ⟨hb, rfl, rfl, rfl, rfl, rfl⟩

/-- A concrete postDel builder used to exercise `C3_postdel_decision`. -/
def samplePostDelBuilder : requestPostDelBuilder :=
  { group := "", version := "v1", resource := "pods", resourceVersion := "",
    nspace := "ns", deleteRatio := 1/2, maxRetries := 0,
    cache := ⟨["a"]⟩, resourceCounter := 0 }

/-- C3 witness: draw `randomInt = 100` (`u = 0.1 < 0.5`) against a
builder caching `["a"]`: `Build` produces a DELETE for `"a"` and empties
the cache; the POST arm at timestamp 7 would name the resource `"7-1"`. -/
theorem C3_postdel_decision_witness :
    (samplePostDelBuilder.Build 100 7).1.operation = "DELETE" ∧
    (samplePostDelBuilder.Build 100 7).1.name = "a" ∧
    (samplePostDelBuilder.Build 100 7).2.cache = ⟨[]⟩ ∧
    (samplePostDelBuilder.buildPost 7).1.name = "7-1" := by
  have h := C3_postdel_decision samplePostDelBuilder 100 7
    ⟨"", "v1", "pods", "ns", 1/2⟩ "" 0 (by norm_num) (by norm_num)
  have hd := h.2.1 "a" [] (by norm_num [samplePostDelBuilder]) rfl
  refine ⟨hd.1, hd.2.1, ?_, rfl⟩
  rw [hd.2.2.2]

/-- Go contexts as the engine builds them: `context.Background()` or a
`context.WithCancel` child whose cancel function may have been called.
`done` holds once the context or any ancestor has been cancelled. -/
inductive GoContext
  | background
  | withCancel (parent : GoContext) (cancelled : Bool)
deriving DecidableEq, Repr

/-- Whether the context's `Done` channel is closed. -/
def GoContext.done : GoContext → Bool
  | .background => false
  | .withCancel p c => c || p.done

/-- The scheduler's context (request/cache.go, top of `Schedule`):
`ctx, cancel := context.WithCancel(ctx)` — a cancellable child of the
caller's context; `cancelCalled` records whether `cancel` has run. -/
def scheduleCtx (caller : GoContext) (cancelCalled : Bool) : GoContext :=
  .withCancel caller cancelCalled

/-- The generator's own context (`NewWeightedRandomRequests`):
`context.WithCancel(context.Background())`, cancelled by `Stop`. -/
def generatorCtx (stopCalled : Bool) : GoContext :=
  .withCancel .background stopCalled

/-- The context the worker loop of `Schedule` passes to the stream call:
the source reads `respBody, err := req.Stream(context.Background())`, so
every in-flight stream read runs under the background context, whatever
the scheduler's context is. -/
def workerStreamCtx (_schedCtx : GoContext) : GoContext := .background

/-- C2 counterexample: cancel the caller's context; the scheduler's
derived context is done, yet the context under which the worker's
in-flight stream read runs is `context.Background()`, which is never
done — so cancellation does NOT close in-flight stream reads via
per-request contexts, contrary to the claim. -/
theorem C2_counterexample :
    (GoContext.withCancel .background true).done = true ∧
    (scheduleCtx (.withCancel .background true) false).done = true ∧
    (workerStreamCtx
      (scheduleCtx (.withCancel .background true) false)).done = false := by
  exact ⟨rfl, rfl, rfl⟩

/-- C2 amended: cancelling the caller's context cancels the scheduler's
derived context, and the generator — whose `select` watches that
context — exits its loop at the next iteration; but in-flight stream
reads are opened with `context.Background()`, which no cancellation ever
closes, so their termination is not driven by the per-request context
(only by the 60-second request timeout or the server). `Stop` likewise
cancels the generator's own context. -/
theorem C2_cancellation_propagation (caller : GoContext)
    (h : caller.done = true) :
    (scheduleCtx caller false).done = true ∧
    (∀ (total : Int) (fuel : Nat) (s : Int), ∃ e,
        runLoop total (fun _ => (scheduleCtx caller false).done)
          (fuel + 1) s = some (e, s)) ∧
    (generatorCtx true).done = true ∧
    (∀ c : GoContext, (workerStreamCtx c).done = false) := by
  have hdone : (scheduleCtx caller false).done = true := by
    simp [scheduleCtx, GoContext.done, h]
  refine ⟨hdone, ?_, rfl, fun _ => rfl⟩
  intro total fuel s
  by_cases hreach : 0 < total ∧ total ≤ s
  · exact ⟨.reached, by rw [runLoop, if_pos hreach]⟩
  · refine ⟨.cancelled, ?_⟩
    rw [runLoop, if_neg hreach, if_pos hdone]

/-- C2 witness: a cancelled caller context: the derived scheduler context
is done, the generator loop exits immediately (here `total = 5`, already
3 sends done: exit is by cancellation), and the stream context stays
open. -/
theorem C2_cancellation_propagation_witness :
    (scheduleCtx (.withCancel .background true) false).done = true ∧
    runLoop 5 (fun _ => (scheduleCtx (.withCancel .background true) false).done)
      1 3 = some (.cancelled, 3) ∧
    (workerStreamCtx (scheduleCtx (.withCancel .background true) false)).done
      = false := by
  have h := C2_cancellation_propagation (.withCancel .background true) rfl
  obtain ⟨h1, h2, _, h4⟩ := h
  obtain ⟨e, he⟩ := h2 5 0 3
  refine ⟨h1, ?_, h4 _⟩
  cases e with
  | reached =>
      exfalso
      have := runLoop_reached_imp 5
        (fun _ => (scheduleCtx (.withCancel .background true) false).done)
        1 3 3 he
      omega
  | cancelled => exact he

/-- The per-request body of the worker loop in `Schedule`
(request/cache.go): each builder taken from the channel is executed once;
the deferred `respMetric.ObserveLatency` always runs, and on error (of
`Stream` or of the body copy) `respMetric.ObserveFailure` records the
error. `lat` is the measured latency, `outcome` is `none` on success and
`some err` on failure. -/
def workerObserve (m : responseMetricImpl) (lat : ℚ)
    (outcome : Option String) : responseMetricImpl :=
  (match outcome with
   | none => m
   | some e => m.ObserveFailure e).ObserveLatency lat

/-- One executed request folded into the sink: the pair is
(latency, outcome). -/
def sinkStep (m : responseMetricImpl) (r : ℚ × Option String) :
    responseMetricImpl :=
  workerObserve m r.1 r.2

/-- The whole run phase of `Schedule` as seen by the metric sink: the
requests actually executed by the workers, in sink arrival order, folded
over the fresh sink. -/
def processAll (reqs : List (ℚ × Option String)) : responseMetricImpl :=
  reqs.foldl sinkStep NewResponseMetric

/-- The number of observations recorded in the sink: one latency
observation is recorded per executed request, success or failure. -/
def observationCount (m : responseMetricImpl) : Nat :=
  m.latencySeconds.length

lemma processAll_go_latency_length (reqs : List (ℚ × Option String)) :
    ∀ m : responseMetricImpl,
      (reqs.foldl sinkStep m).latencySeconds.length
        = m.latencySeconds.length + reqs.length := by
  induction reqs with
  | nil => intro m; simp
  | cons r rest ih =>
      intro m
      obtain ⟨lat, outcome⟩ := r
      rw [List.foldl_cons, ih (sinkStep m (lat, outcome))]
      have hone : (sinkStep m (lat, outcome)).latencySeconds.length =
          m.latencySeconds.length + 1 := by
        cases outcome with
        | none =>
            simp [sinkStep, workerObserve, responseMetricImpl.ObserveLatency]
        | some e =>
            simp [sinkStep, workerObserve, responseMetricImpl.ObserveLatency,
              responseMetricImpl.ObserveFailure]
      rw [hone]
      simp only [List.length_cons]
      omega

lemma processAll_go_failure_split (reqs : List (ℚ × Option String)) :
    ∀ m : responseMetricImpl,
      (reqs.foldl sinkStep m).failureList.length
          + reqs.countP (fun r => r.2.isNone)
        = m.failureList.length + reqs.length := by
  induction reqs with
  | nil => intro m; simp
  | cons r rest ih =>
      intro m
      obtain ⟨lat, outcome⟩ := r
      rw [List.foldl_cons, List.countP_cons]
      have hih := ih (sinkStep m (lat, outcome))
      cases outcome with
      | none =>
          have hm : (sinkStep m (lat, none)).failureList = m.failureList := rfl
          rw [hm] at hih
          simp only [Option.isNone_none, if_true, List.length_cons]
          omega
      | some e =>
          have hm : (sinkStep m (lat, some e)).failureList.length =
              m.failureList.length + 1 := by
            simp [sinkStep, workerObserve, responseMetricImpl.ObserveLatency,
              responseMetricImpl.ObserveFailure]
          rw [hm] at hih
          simp only [Option.isNone_some, Bool.false_eq_true, if_false,
            List.length_cons]
          omega

lemma observationCount_processAll (reqs : List (ℚ × Option String)) :
    observationCount (processAll reqs) = reqs.length := by
  have := processAll_go_latency_length reqs NewResponseMetric
  simpa [observationCount, processAll, NewResponseMetric] using this

/-- C1: total fidelity: with a finite configured `total = T > 0` and a
steady-state run (no cancellation: the generator sends exactly `T`
builders and the workers execute all of them), the sink records exactly
`T` observations — the recorded failures plus the successful requests
together count `T` — and the returned `ResponseStats.Total` is the
configured `T`; and for ANY executed-request list (early cancellation
included) `ResponseStats.Total` is still the configured `T` while the
observation count equals the number of requests actually run. -/
theorem C1_total_fidelity (T : Int) (reqs reqs2 : List (ℚ × Option String))
    (d : ℚ) (bytes : Int) (hT : 0 < T)
    (hsteady : (reqs.length : Int) = T) :
    WeightedRandomRequests.Run T (fun _ => false) (T.toNat + 1) =
      some (.reached, T) ∧
    (observationCount (processAll reqs) : Int) = T ∧
    ((processAll reqs).failureList.length : Int) +
      (reqs.countP (fun r => r.2.isNone) : Int) = T ∧
    (scheduleGatherReturn T d bytes (processAll reqs) none).1.Total = T ∧
    (scheduleGatherReturn T d bytes (processAll reqs2) none).1.Total = T ∧
    observationCount (processAll reqs2) = reqs2.length := by
  refine ⟨runLoop_noCancel_reaches T T.toNat 0 hT (by omega), ?_, ?_, rfl,
    rfl, observationCount_processAll reqs2⟩
  · rw [observationCount_processAll reqs]
    exact hsteady
  · have h := processAll_go_failure_split reqs NewResponseMetric
    have h0 : NewResponseMetric.failureList.length = 0 := rfl
    rw [h0] at h
    rw [processAll]
    omega

/-- C1 witness: `T = 2`, a steady-state run of two requests (one success,
one failure): 2 observations, failures + successes = 2, stats total 2;
an early-cancelled run of one request still reports total 2 with one
observation. -/
theorem C1_total_fidelity_witness :
    WeightedRandomRequests.Run 2 (fun _ => false) 3 = some (.reached, 2) ∧
    (observationCount (processAll [(1, none), (2, some "x")]) : Int) = 2 ∧
    (scheduleGatherReturn 2 0 0 (processAll [(3, none)]) none).1.Total = 2 ∧
    observationCount (processAll [(3, none)]) = 1 := by
  have h := C1_total_fidelity 2 [(1, none), (2, some "x")] [(3, none)] 0 0
    (by norm_num) (by norm_num)
  exact ⟨h.1, h.2.1, h.2.2.2.2.1, h.2.2.2.2.2⟩

end Kperf
